import Mathlib

/-!
A shallow embedding of the session store in `src-tauri/src/lib.rs`:
four Tauri commands (`save_chat`, `list_chats`, `load_chat`, `delete_chat`)
that persist chat sessions as `<id>.json` files in an application `chats`
directory.

Modelling conventions:
* `serde_json::Value` is the inductive `Json`.  JSON numbers are modelled by
  `JNum`: every number parsed from JSON text is a finite value (`rat`), but
  the type also has `nan` so that the f64 `partial_cmp` used by the sort in
  `list_chats` (which returns `None` on NaN) is modelled faithfully.
  Valid JSON text cannot denote NaN, so file contents containing `nan` are
  unreachable states; theorems that need it assume `File.noNan`.
* The filesystem is a state `FS`: an association list of file names to
  `File`s plus boolean flags for the fallible environment calls
  (`app_data_dir`, `create_dir_all`, `read_dir`, `fs::write`) together with
  the error strings those calls would report.  A file's content is stored by
  its parse result (`FileContent`): `serde_json::to_string_pretty` followed
  by `serde_json::from_str` returns the value that was serialised, so a file
  written by `save_chat` holds `FileContent.json` of the written value, and a
  file whose text does not parse holds `FileContent.corrupt` with the parser
  message.  Failure of an individual `read_dir` entry is folded into
  `readable := false` (both lead to the entry being skipped).
* `std::time::SystemTime::now()` is the field `FS.now` (unix milliseconds);
  a file's creation time (`fs::metadata` + `created()` + `duration_since`)
  is `File.created : Option ℚ` in seconds, `none` covering failure of any of
  the three calls.
* Each command is a function `FS → result × FS`, returning the Rust
  `Result` as `Except String _` together with the post-state.
-/

/-- JSON numbers: `serde_json::Number`, viewed through `as_f64`.  Parsed
numbers are always finite (`rat`); `nan` exists only to model the partial
order on f64 used by the sort comparator. -/
inductive JNum
  | rat (q : ℚ)
  | nan
deriving DecidableEq

/-- `true` on numbers that JSON text can actually denote. -/
def JNum.isRat : JNum → Bool
  | .rat _ => true
  | .nan => false

/-- `f64::partial_cmp`: `None` when either side is NaN. -/
def JNum.partialCmp : JNum → JNum → Option Ordering
  | .rat a, .rat b => some (if a < b then .lt else if b < a then .gt else .eq)
  | _, _ => none

/-- `serde_json::Value`.  Objects are association lists of fields; serde's
map (`BTreeMap`) is modelled by first-match lookup and in-place replacing
insert, which agree with it on all map observations used here. -/
inductive Json
  | null
  | bool (b : Bool)
  | num (n : JNum)
  | str (s : String)
  | arr (elems : List Json)
  | obj (fields : List (String × Json))

/-- `serde_json::Map::get`. -/
def getVal : List (String × Json) → String → Option Json
  | [], _ => none
  | (k', v) :: rest, k => if k' = k then some v else getVal rest k

/-- `serde_json::Map::insert`: replace the value of an existing key, else
add the binding. -/
def insertField : List (String × Json) → String → Json → List (String × Json)
  | [], k, v => [(k, v)]
  | (k', v') :: rest, k, v =>
    if k' = k then (k, v) :: rest else (k', v') :: insertField rest k v

/-- `Value::index` with a string key: `Null` for a missing key or a
non-object receiver. -/
def Json.index (j : Json) (k : String) : Json :=
  match j with
  | .obj o => (getVal o k).getD .null
  | _ => .null

/-- `Value::as_str`. -/
def Json.as_str : Json → Option String
  | .str s => some s
  | _ => none

/-- `Value::as_f64` (`serde_json::Number::as_f64` always succeeds). -/
def Json.as_f64 : Json → Option JNum
  | .num n => some n
  | _ => none

/-- `Value::as_object`, returning the field list. -/
def Json.as_object : Json → Option (List (String × Json))
  | .obj o => some o
  | _ => none

/-- A file's content, by its JSON parse result (see module conventions). -/
inductive FileContent
  | json (value : Json)
  | corrupt (msg : String)

/-- One directory entry: whether `fs::read_to_string` succeeds (and the OS
message when it does not), the content, and the creation time in seconds
when available. -/
structure File where
  readable : Bool
  readErr : String
  content : FileContent
  created : Option ℚ

/-- The store's world state: environment-call outcomes, the `chats`
directory entries, and the current time in unix milliseconds. -/
structure FS where
  appDataDirOk : Bool
  appDataDirErr : String
  dirExists : Bool
  createDirOk : Bool
  createDirErr : String
  readDirOk : Bool
  writeOk : Bool
  writeErr : String
  removeErr : String
  files : List (String × File)
  now : Nat

/-- `fs::read_dir`-entry lookup / `fs::read_to_string` target resolution:
find a directory entry by name. -/
def getFile : List (String × File) → String → Option File
  | [], _ => none
  | (n, f) :: rest, name => if n = name then some f else getFile rest name

/-- `fs::write`: truncate an existing file (keeping its creation time) or
create a new one (created now). -/
def writeFile : List (String × File) → String → FileContent → ℚ →
    List (String × File)
  | [], name, c, t => [(name, ⟨true, "", c, some t⟩)]
  | (n, f) :: rest, name, c, t =>
    if n = name then (n, { f with readable := true, content := c }) :: rest
    else (n, f) :: writeFile rest name c t

/-- `fs::remove_file` on an existing entry. -/
def eraseFile : List (String × File) → String → List (String × File)
  | [], _ => []
  | (n, f) :: rest, name => if n = name then rest else (n, f) :: eraseFile rest name

/-- `Path::file_stem` / `Path::extension` for a plain file name: split at the
last `.`; no split when there is no dot or when the only dot is leading. -/
def splitName (name : String) : String × Option String :=
  let cs := name.toList
  match cs.reverse.findIdx? (· == '.') with
  | none => (name, none)
  | some r =>
    let i := cs.length - 1 - r
    if i = 0 then (name, none)
    else (String.mk (cs.take i), some (String.mk (cs.drop (i + 1))))

def fileStem (name : String) : String := (splitName name).1

def fileExt (name : String) : Option String := (splitName name).2

/-- `get_chats_dir`: resolve the app data directory, then ensure the `chats`
subdirectory exists, creating it if missing. -/
def get_chats_dir (fs : FS) : Except String FS :=
  if fs.appDataDirOk = false then
    .error ("Failed to get app data dir: " ++ fs.appDataDirErr)
  else if fs.dirExists then .ok fs
  else if fs.createDirOk then .ok { fs with dirExists := true }
  else .error ("Failed to create chats directory: " ++ fs.createDirErr)

/-- `session["id"].as_str().unwrap_or_default()`. -/
def storedIdStr (session : Json) : String := ((session.index "id").as_str).getD ""

/-- The id `save_chat` resolves: the stored non-empty string id, else
`chat_<now-millis>`. -/
def saveId (fs : FS) (session : Json) : String :=
  if storedIdStr session = "" then "chat_" ++ toString fs.now else storedIdStr session

/-- `save_chat`: resolve the id, resolve the directory, require an object,
force the `id` field, and write `<id>.json`. -/
def save_chat (fs : FS) (session : Json) : Except String String × FS :=
  let id := saveId fs session
  let filename := id ++ ".json"
  match get_chats_dir fs with
  | .error e => (.error e, fs)
  | .ok fs1 =>
    match session.as_object with
    | none => (.error "Invalid session format", fs1)
    | some o =>
      let o1 := insertField o "id" (.str id)
      if fs1.writeOk then
        (.ok id,
         { fs1 with
            files := writeFile fs1.files filename (.json (.obj o1))
              ((fs1.now : ℚ) / 1000) })
      else (.error fs1.writeErr, fs1)

/-- The per-record repair inside `list_chats`: on objects, force `id` to the
file stem and synthesise a `timestamp` (creation seconds × 1000) when the
field is missing and a creation time is available; non-objects pass through
unchanged. -/
def repairRecord (stem : String) (created : Option ℚ) : Json → Json
  | .obj o =>
    let o1 := insertField o "id" (.str stem)
    let o2 :=
      if (getVal o1 "timestamp").isSome then o1
      else
        match created with
        | some t => insertField o1 "timestamp" (.num (.rat (t * 1000)))
        | none => o1
    .obj o2
  | j => j

/-- The body of the `list_chats` scan loop for one directory entry: keep
only readable `.json` files that parse, repaired. -/
def processEntry (name : String) (f : File) : Option Json :=
  if fileExt name = some "json" then
    if f.readable then
      match f.content with
      | .json data => some (repairRecord (fileStem name) f.created data)
      | .corrupt _ => none
    else none
  else none

/-- The effective timestamp of a listed record:
`a["timestamp"].as_f64().unwrap_or(0.0)`. -/
def effTs (j : Json) : JNum := ((j.index "timestamp").as_f64).getD (.rat 0)

/-- The sort comparator of `list_chats`:
`t_b.partial_cmp(&t_a).unwrap_or(Equal)`. -/
def cmpSessions (a b : Json) : Ordering :=
  ((effTs b).partialCmp (effTs a)).getD .eq

/-- `Vec::sort_by` with `cmpSessions`: a stable merge sort placing `a`
before `b` when the comparator does not say `Greater`. -/
def sortSessions (l : List Json) : List Json :=
  l.mergeSort (fun a b => cmpSessions a b != Ordering.gt)

/-- `list_chats`: resolve the directory, scan it (an unreadable directory
yields no entries), and sort by timestamp descending. -/
def list_chats (fs : FS) : Except String (List Json) × FS :=
  match get_chats_dir fs with
  | .error e => (.error e, fs)
  | .ok fs1 =>
    let sessions :=
      if fs1.readDirOk then
        fs1.files.filterMap (fun nf => processEntry nf.1 nf.2)
      else []
    (.ok (sortSessions sessions), fs1)

/-- `load_chat`: read `<id>.json` (any read failure becomes the fixed
message "Chat not found") and parse it (parse failure propagates the parser
message). -/
def load_chat (fs : FS) (id : String) : Except String Json × FS :=
  match get_chats_dir fs with
  | .error e => (.error e, fs)
  | .ok fs1 =>
    match getFile fs1.files (id ++ ".json") with
    | none => (.error "Chat not found", fs1)
    | some f =>
      if f.readable then
        match f.content with
        | .json j => (.ok j, fs1)
        | .corrupt msg => (.error msg, fs1)
      else (.error "Chat not found", fs1)

/-- `delete_chat`: remove `<id>.json`, propagating the OS error message on
failure (modelled: removal fails exactly when the file is missing). -/
def delete_chat (fs : FS) (id : String) : Except String Unit × FS :=
  match get_chats_dir fs with
  | .error e => (.error e, fs)
  | .ok fs1 =>
    match getFile fs1.files (id ++ ".json") with
    | some _ => (.ok (), { fs1 with files := eraseFile fs1.files (id ++ ".json") })
    | none => (.error fs1.removeErr, fs1)

/-- Top-level NaN-freedom of a value: no immediate field (and not the value
itself) is the unreachable `JNum.nan`.  Parsed JSON always satisfies this. -/
def Json.topNoNan : Json → Bool
  | .num n => n.isRat
  | .obj o => o.all (fun kv => match kv.2 with | .num n => n.isRat | _ => true)
  | _ => true

/-- A file whose parse result is NaN-free (every real file is). -/
def File.noNan (f : File) : Bool :=
  match f.content with
  | .json j => j.topNoNan
  | .corrupt _ => true

/-- The effective timestamp as a rational, for stating the sort order
(`nan` never occurs under the `noNan` hypotheses and is sent to 0). -/
def tsVal (j : Json) : ℚ :=
  match effTs j with
  | .rat q => q
  | .nan => 0

/-- A healthy world: directory resolvable and present, all environment
calls succeed, no files yet. -/
def baseFS : FS :=
  { appDataDirOk := true
    appDataDirErr := ""
    dirExists := true
    createDirOk := true
    createDirErr := ""
    readDirOk := true
    writeOk := true
    writeErr := ""
    removeErr := "No such file or directory (os error 2)"
    files := []
    now := 1700000000000 }

/-- A store holding one file `b.json` whose stored `id` is `"a"`. -/
def exC1 : FS :=
  { baseFS with files := [("b.json", ⟨true, "", .json (.obj [("id", .str "a")]), none⟩)] }

/-- A healthy world whose `chats` directory does not exist yet. -/
def exC4 : FS := { baseFS with dirExists := false }

/-- Two records with the same timestamp 100. -/
def exTie : FS :=
  { baseFS with files := [
      ("a.json", ⟨true, "", .json (.obj [("timestamp", .num (.rat 100))]), none⟩),
      ("b.json", ⟨true, "", .json (.obj [("timestamp", .num (.rat 100))]), none⟩)] }

/-- Three records with timestamps 100, 300, 200 (in directory order). -/
def exSorted : FS :=
  { baseFS with files := [
      ("a.json", ⟨true, "", .json (.obj [("timestamp", .num (.rat 100))]), none⟩),
      ("b.json", ⟨true, "", .json (.obj [("timestamp", .num (.rat 300))]), none⟩),
      ("c.json", ⟨true, "", .json (.obj [("timestamp", .num (.rat 200))]), none⟩)] }

/-- One corrupt file between two valid records. -/
def exMix : FS :=
  { baseFS with files := [
      ("good1.json", ⟨true, "", .json (.obj [("timestamp", .num (.rat 1))]), none⟩),
      ("bad.json", ⟨true, "", .corrupt "expected value at line 1 column 1", none⟩),
      ("good2.json", ⟨true, "", .json (.obj [("timestamp", .num (.rat 2))]), none⟩)] }

/-- A healthy world where scanning the directory fails. -/
def exNoRead : FS := { baseFS with readDirOk := false }

theorem bne_gt_gt_eq : (Ordering.gt != Ordering.gt) = false := rfl

theorem bne_lt_gt_eq : (Ordering.lt != Ordering.gt) = true := rfl

theorem bne_eq_gt_eq : (Ordering.eq != Ordering.gt) = true := rfl

theorem getVal_insertField_self (o : List (String × Json)) (k : String) (v : Json) :
    getVal (insertField o k v) k = some v := by
  induction o with
  | nil => simp [insertField, getVal]
  | cons kv rest ih =>
    by_cases h : kv.1 = k
    · simp [insertField, h, getVal]
    · simp [insertField, h, getVal, ih]

theorem getVal_insertField_ne (o : List (String × Json)) (k k' : String) (v : Json)
    (hne : k' ≠ k) : getVal (insertField o k v) k' = getVal o k' := by
  induction o with
  | nil => simp [insertField, getVal, Ne.symm hne]
  | cons kv rest ih =>
    by_cases h : kv.1 = k
    · simp [insertField, h, getVal, Ne.symm hne]
    · simp [insertField, h, getVal, ih]

theorem getVal_mem (o : List (String × Json)) (k : String) (v : Json)
    (h : getVal o k = some v) : (k, v) ∈ o := by
  induction o with
  | nil => simp [getVal] at h
  | cons kv rest ih =>
    obtain ⟨k1, v1⟩ := kv
    by_cases hk : k1 = k
    · rw [getVal, if_pos hk] at h
      obtain ⟨rfl⟩ := h
      subst hk
      exact List.mem_cons_self _ _
    · rw [getVal, if_neg hk] at h
      exact List.mem_cons_of_mem _ (ih h)

theorem getFile_writeFile_self (files : List (String × File)) (n : String)
    (c : FileContent) (t : ℚ) :
    ∃ f, getFile (writeFile files n c t) n = some f ∧
      f.readable = true ∧ f.content = c := by
  induction files with
  | nil => exact ⟨⟨true, "", c, some t⟩, by simp [writeFile, getFile], rfl, rfl⟩
  | cons nf rest ih =>
    by_cases h : nf.1 = n
    · exact ⟨{ nf.2 with readable := true, content := c },
        by simp [writeFile, h, getFile], rfl, rfl⟩
    · obtain ⟨f, hf, hr, hc⟩ := ih
      refine ⟨f, ?_, hr, hc⟩
      simp [writeFile, h, getFile, hf]

theorem get_chats_dir_of_exists (fs : FS) (hA : fs.appDataDirOk = true)
    (hD : fs.dirExists = true) : get_chats_dir fs = .ok fs := by
  simp [get_chats_dir, hA, hD]

theorem repairRecord_obj (stem : String) (created : Option ℚ)
    (o : List (String × Json)) :
    repairRecord stem created (.obj o) =
      .obj (if (getVal (insertField o "id" (.str stem)) "timestamp").isSome then
              insertField o "id" (.str stem)
            else
              match created with
              | some t => insertField (insertField o "id" (.str stem)) "timestamp"
                  (.num (.rat (t * 1000)))
              | none => insertField o "id" (.str stem)) := rfl

theorem repairRecord_obj_id (stem : String) (created : Option ℚ)
    (o o' : List (String × Json))
    (h : repairRecord stem created (.obj o) = .obj o') :
    getVal o' "id" = some (.str stem) := by
  rw [repairRecord_obj] at h
  obtain ⟨rfl⟩ := h
  by_cases hts : (getVal (insertField o "id" (.str stem)) "timestamp").isSome
  · rw [if_pos hts]
    exact getVal_insertField_self o "id" (.str stem)
  · rw [if_neg hts]
    cases created with
    | some t =>
      rw [getVal_insertField_ne _ _ _ _ (by decide)]
      exact getVal_insertField_self o "id" (.str stem)
    | none => exact getVal_insertField_self o "id" (.str stem)

theorem processEntry_some (name : String) (f : File) (j : Json)
    (h : processEntry name f = some j) :
    fileExt name = some "json" ∧ f.readable = true ∧
    ∃ data, f.content = .json data ∧ j = repairRecord (fileStem name) f.created data := by
  rw [processEntry] at h
  by_cases hext : fileExt name = some "json"
  · rw [if_pos hext] at h
    by_cases hr : f.readable = true
    · rw [if_pos hr] at h
      cases hc : f.content with
      | json data =>
        rw [hc] at h
        obtain ⟨rfl⟩ := h
        exact ⟨hext, hr, data, rfl, rfl⟩
      | corrupt m => rw [hc] at h; cases h
    · rw [if_neg hr] at h; cases h
  · rw [if_neg hext] at h; cases h

theorem processEntry_obj_id (name : String) (f : File) (o' : List (String × Json))
    (h : processEntry name f = some (.obj o')) :
    getVal o' "id" = some (.str (fileStem name)) := by
  obtain ⟨hext, hr, data, hc, hj⟩ := processEntry_some name f _ h
  cases data with
  | obj o => exact repairRecord_obj_id _ _ _ _ hj.symm
  | null => cases hj
  | bool b => cases hj
  | num n => cases hj
  | str s => cases hj
  | arr xs => cases hj

theorem effTs_not_obj (j : Json) (h : ∀ o, j ≠ .obj o) : effTs j = .rat 0 := by
  cases j with
  | obj o => exact absurd rfl (h o)
  | null => rfl
  | bool b => rfl
  | num n => rfl
  | str s => rfl
  | arr xs => rfl

theorem effTs_obj (o : List (String × Json)) :
    effTs (.obj o) = (((getVal o "timestamp").getD .null).as_f64).getD (.rat 0) := rfl

theorem repairRecord_tsRat (stem : String) (created : Option ℚ) (data : Json)
    (hn : data.topNoNan = true) :
    (effTs (repairRecord stem created data)).isRat = true := by
  cases data with
  | obj o =>
    rw [repairRecord_obj]
    by_cases hts : (getVal (insertField o "id" (.str stem)) "timestamp").isSome
    · rw [if_pos hts]
      rw [effTs_obj]
      have hne : getVal (insertField o "id" (.str stem)) "timestamp" =
          getVal o "timestamp" := getVal_insertField_ne o "id" "timestamp" _ (by decide)
      rw [hne] at hts ⊢
      obtain ⟨v, hv⟩ := Option.isSome_iff_exists.mp hts
      rw [hv]
      have hmem := getVal_mem o "timestamp" v hv
      have hall := List.all_eq_true.mp hn
      have hvp := hall _ hmem
      cases v with
      | num n =>
        simp only at hvp
        simpa [Json.as_f64] using hvp
      | null => simp [Json.as_f64, JNum.isRat]
      | bool b => simp [Json.as_f64, JNum.isRat]
      | str s => simp [Json.as_f64, JNum.isRat]
      | arr xs => simp [Json.as_f64, JNum.isRat]
      | obj o2 => simp [Json.as_f64, JNum.isRat]
    · rw [if_neg hts]
      cases created with
      | some t =>
        rw [effTs_obj, getVal_insertField_self]
        simp [Json.as_f64, JNum.isRat]
      | none =>
        rw [Option.not_isSome_iff_eq_none] at hts
        have hne : getVal (insertField o "id" (.str stem)) "timestamp" =
            getVal o "timestamp" := getVal_insertField_ne o "id" "timestamp" _ (by decide)
        rw [hne] at hts
        simp [effTs_obj, hne, hts, Json.as_f64, JNum.isRat]
  | null => simp [repairRecord, effTs_not_obj, JNum.isRat]
  | bool b => rw [show repairRecord stem created (.bool b) = .bool b from rfl,
      effTs_not_obj _ (by intro o h; cases h)]; rfl
  | num n => rw [show repairRecord stem created (.num n) = .num n from rfl,
      effTs_not_obj _ (by intro o h; cases h)]; rfl
  | str s => rw [show repairRecord stem created (.str s) = .str s from rfl,
      effTs_not_obj _ (by intro o h; cases h)]; rfl
  | arr xs => rw [show repairRecord stem created (.arr xs) = .arr xs from rfl,
      effTs_not_obj _ (by intro o h; cases h)]; rfl

theorem processEntry_tsRat (name : String) (f : File) (j : Json)
    (hn : f.noNan = true) (h : processEntry name f = some j) :
    (effTs j).isRat = true := by
  obtain ⟨hext, hr, data, hc, hj⟩ := processEntry_some name f _ h
  rw [File.noNan, hc] at hn
  rw [hj]
  exact repairRecord_tsRat _ _ _ hn

theorem tsVal_of_rat (j : Json) (q : ℚ) (h : effTs j = .rat q) : tsVal j = q := by
  rw [tsVal, h]

theorem cmpSessions_rat (a b : Json) (qa qb : ℚ)
    (ha : effTs a = .rat qa) (hb : effTs b = .rat qb) :
    cmpSessions a b = (if qb < qa then .lt else if qa < qb then .gt else .eq) := by
  rw [cmpSessions, ha, hb, JNum.partialCmp, Option.getD_some]

theorem leSessions_agree (a b : Json) (ha : (effTs a).isRat = true)
    (hb : (effTs b).isRat = true) :
    (cmpSessions a b != Ordering.gt) = decide (tsVal b ≤ tsVal a) := by
  cases hA : effTs a with
  | nan => rw [hA] at ha; cases ha
  | rat qa =>
    cases hB : effTs b with
    | nan => rw [hB] at hb; cases hb
    | rat qb =>
      rw [cmpSessions_rat a b qa qb hA hB, tsVal_of_rat a qa hA, tsVal_of_rat b qb hB]
      rcases lt_trichotomy qb qa with hlt | heq | hgt
      · rw [if_pos hlt]
        simp [bne_lt_gt_eq, hlt.le]
      · rw [if_neg (by rw [heq]; exact lt_irrefl qa), if_neg (by rw [heq]; exact lt_irrefl qa)]
        simp [bne_eq_gt_eq, heq.le]
      · rw [if_neg (not_lt.mpr hgt.le), if_pos hgt]
        simp [bne_gt_gt_eq, not_le.mpr hgt]

theorem sortSessions_perm (l : List Json) : (sortSessions l).Perm l :=
  List.mergeSort_perm l _

/-- The total comparison the descending sort realises on NaN-free records
(used only in statements and proofs, not by the embedded code). -/
def leQ (a b : Json) : Bool := decide (tsVal b ≤ tsVal a)

theorem leQ_trans (a b c : Json) (hab : leQ a b) (hbc : leQ b c) : leQ a c := by
  simp only [leQ, decide_eq_true_eq] at *
  exact le_trans hbc hab

theorem leQ_total (a b : Json) : leQ a b || leQ b a := by
  simp only [leQ, Bool.or_eq_true, decide_eq_true_eq]
  exact le_total (tsVal b) (tsVal a)

theorem sortSessions_sorted (l : List Json) (h : ∀ j ∈ l, (effTs j).isRat = true) :
    (sortSessions l).Pairwise (fun a b => tsVal b ≤ tsVal a) := by
  have hagree : ∀ a ∈ l, ∀ b ∈ l,
      (cmpSessions a b != Ordering.gt) = leQ (id a) (id b) := by
    intro a ha b hb
    rw [leQ]
    exact leSessions_agree a b (h a ha) (h b hb)
  have hmap := List.map_mergeSort (f := id) (l := l) (s := leQ) hagree
  rw [List.map_id, List.map_id] at hmap
  rw [sortSessions, hmap]
  have hs := List.sorted_mergeSort leQ_trans leQ_total l
  refine hs.imp ?_
  intro a b hab
  simpa [leQ] using hab

theorem save_chat_obj_ok (fs : FS) (o : List (String × Json))
    (hA : fs.appDataDirOk = true) (hD : fs.dirExists = true ∨ fs.createDirOk = true)
    (hW : fs.writeOk = true) :
    (save_chat fs (.obj o)).1 = .ok (saveId fs (.obj o)) ∧
    (save_chat fs (.obj o)).2.files =
      writeFile fs.files (saveId fs (.obj o) ++ ".json")
        (.json (.obj (insertField o "id" (.str (saveId fs (.obj o))))))
        ((fs.now : ℚ) / 1000) ∧
    (save_chat fs (.obj o)).2.appDataDirOk = true ∧
    (save_chat fs (.obj o)).2.dirExists = true := by
  by_cases hDir : fs.dirExists = true
  · simp [save_chat, get_chats_dir, hA, hDir, Json.as_object, hW]
  · rcases hD with hD | hC
    · exact absurd hD hDir
    · simp [save_chat, get_chats_dir, hA, hDir, hC, Json.as_object, hW]

theorem save_then_load (fs : FS) (o : List (String × Json))
    (hA : fs.appDataDirOk = true) (hD : fs.dirExists = true ∨ fs.createDirOk = true)
    (hW : fs.writeOk = true) :
    (load_chat (save_chat fs (.obj o)).2 (saveId fs (.obj o))).1 =
      .ok (.obj (insertField o "id" (.str (saveId fs (.obj o))))) := by
  obtain ⟨h1, h2, h3, h4⟩ := save_chat_obj_ok fs o hA hD hW
  rw [load_chat, get_chats_dir_of_exists _ h3 h4]
  obtain ⟨f, hf, hr, hc⟩ := getFile_writeFile_self fs.files
    (saveId fs (.obj o) ++ ".json")
    (.json (.obj (insertField o "id" (.str (saveId fs (.obj o))))))
    ((fs.now : ℚ) / 1000)
  rw [← h2] at hf
  simp [hf, hr, hc]

theorem get_chats_dir_ok_parts (fs fs1 : FS) (h : get_chats_dir fs = .ok fs1) :
    fs1.files = fs.files ∧ fs1.readDirOk = fs.readDirOk ∧
    fs1.appDataDirOk = fs.appDataDirOk ∧ fs1.now = fs.now ∧
    fs1.writeOk = fs.writeOk ∧ fs1.removeErr = fs.removeErr ∧
    fs1.dirExists = true ∧ (fs1 = fs ∨ fs1 = { fs with dirExists := true }) := by
  rw [get_chats_dir] at h
  by_cases hA : fs.appDataDirOk = false
  · rw [if_pos hA] at h; cases h
  · rw [if_neg hA] at h
    by_cases hD : fs.dirExists = true
    · rw [if_pos hD] at h
      obtain ⟨rfl⟩ := h
      exact ⟨rfl, rfl, rfl, rfl, rfl, rfl, hD, Or.inl rfl⟩
    · rw [if_neg hD] at h
      by_cases hC : fs.createDirOk = true
      · rw [if_pos hC] at h
        obtain ⟨rfl⟩ := h
        exact ⟨rfl, rfl, rfl, rfl, rfl, rfl, rfl, Or.inr rfl⟩
      · rw [if_neg hC] at h; cases h

theorem get_chats_dir_isOk (fs : FS) (hA : fs.appDataDirOk = true)
    (hD : fs.dirExists = true ∨ fs.createDirOk = true) :
    ∃ fs1, get_chats_dir fs = .ok fs1 := by
  by_cases hDir : fs.dirExists = true
  · exact ⟨fs, get_chats_dir_of_exists fs hA hDir⟩
  · rcases hD with hD | hC
    · exact absurd hD hDir
    · exact ⟨{ fs with dirExists := true }, by simp [get_chats_dir, hA, hDir, hC]⟩

theorem list_chats_ok (fs : FS) (hA : fs.appDataDirOk = true)
    (hD : fs.dirExists = true ∨ fs.createDirOk = true) (hR : fs.readDirOk = true) :
    (list_chats fs).1 =
      .ok (sortSessions (fs.files.filterMap (fun nf => processEntry nf.1 nf.2))) := by
  obtain ⟨fs1, hg⟩ := get_chats_dir_isOk fs hA hD
  obtain ⟨hfiles, hrd, -⟩ := get_chats_dir_ok_parts fs fs1 hg
  rw [hR] at hrd
  simp [list_chats, hg, hrd, hfiles]

/-- C2: for every JSON object S, saving S and then loading the returned id
yields a JSON object structurally equal to S except for the `id` field,
which equals the id returned by save (stated via field lookups: the loaded
object is S with `id` forcibly set, agrees with S on every other key, and
has `id` equal to the returned id). -/
theorem c2_round_trip (fs : FS) (o : List (String × Json))
    (hA : fs.appDataDirOk = true) (hD : fs.dirExists = true ∨ fs.createDirOk = true)
    (hW : fs.writeOk = true) :
    ∃ id, (save_chat fs (.obj o)).1 = .ok id ∧
      (load_chat (save_chat fs (.obj o)).2 id).1 =
        .ok (.obj (insertField o "id" (.str id))) ∧
      getVal (insertField o "id" (.str id)) "id" = some (.str id) ∧
      ∀ k, k ≠ "id" → getVal (insertField o "id" (.str id)) k = getVal o k :=
  ⟨saveId fs (.obj o), (save_chat_obj_ok fs o hA hD hW).1,
    save_then_load fs o hA hD hW, getVal_insertField_self o "id" _,
    fun k hk => getVal_insertField_ne o "id" k _ hk⟩

/-- C2 witness: the round trip at a concrete world and session. -/
theorem c2_witness :
    ∃ id, (save_chat baseFS (.obj [("title", .str "hello")])).1 = .ok id ∧
      (load_chat (save_chat baseFS (.obj [("title", .str "hello")])).2 id).1 =
        .ok (.obj (insertField [("title", .str "hello")] "id" (.str id))) ∧
      getVal (insertField [("title", .str "hello")] "id" (.str id)) "id" =
        some (.str id) ∧
      ∀ k, k ≠ "id" →
        getVal (insertField [("title", .str "hello")] "id" (.str id)) k =
          getVal [("title", .str "hello")] k :=
  c2_round_trip baseFS [("title", .str "hello")] rfl (Or.inl rfl) rfl

/-- C3: for every JSON object with no usable `id` (missing, empty or
non-string), save succeeds returning `chat_<current-unix-millis>`, and a
subsequent load of that id returns an object whose `id` equals it. -/
theorem c3_synthesized_id (fs : FS) (o : List (String × Json))
    (hA : fs.appDataDirOk = true) (hD : fs.dirExists = true ∨ fs.createDirOk = true)
    (hW : fs.writeOk = true) (hid : storedIdStr (.obj o) = "") :
    (save_chat fs (.obj o)).1 = .ok ("chat_" ++ toString fs.now) ∧
    (load_chat (save_chat fs (.obj o)).2 ("chat_" ++ toString fs.now)).1 =
      .ok (.obj (insertField o "id" (.str ("chat_" ++ toString fs.now)))) ∧
    (Json.obj (insertField o "id" (.str ("chat_" ++ toString fs.now)))).index "id" =
      .str ("chat_" ++ toString fs.now) := by
  have hsid : saveId fs (.obj o) = "chat_" ++ toString fs.now := by
    rw [saveId, hid]
    simp
  refine ⟨?_, ?_, ?_⟩
  · rw [← hsid]
    exact (save_chat_obj_ok fs o hA hD hW).1
  · rw [← hsid]
    exact save_then_load fs o hA hD hW
  · rw [Json.index, getVal_insertField_self]
    rfl

/-- C3 witness: saving an id-less session in a concrete world. -/
theorem c3_witness :
    (save_chat baseFS (.obj [("title", .str "x")])).1 =
      .ok ("chat_" ++ toString baseFS.now) ∧
    (load_chat (save_chat baseFS (.obj [("title", .str "x")])).2
        ("chat_" ++ toString baseFS.now)).1 =
      .ok (.obj (insertField [("title", .str "x")] "id"
        (.str ("chat_" ++ toString baseFS.now)))) ∧
    (Json.obj (insertField [("title", .str "x")] "id"
        (.str ("chat_" ++ toString baseFS.now)))).index "id" =
      .str ("chat_" ++ toString baseFS.now) :=
  c3_synthesized_id baseFS [("title", .str "x")] rfl (Or.inl rfl) rfl rfl

/-- C4 counterexample: with the `chats` directory initially missing, a
non-object input still fails with the invalid-format error, but the failed
call has already created the directory — filesystem state DID change, so
the claim that no filesystem state is changed is false. -/
theorem c4_counterexample :
    (save_chat exC4 (.str "x")).1 = .error "Invalid session format" ∧
    exC4.dirExists = false ∧ (save_chat exC4 (.str "x")).2.dirExists = true :=
  ⟨rfl, rfl, rfl⟩

/-- C4 (amended): for every non-object input, save writes no record file
(the directory entries are unchanged), and, whenever directory resolution
succeeds, the call fails with the invalid-format error; the only possible
filesystem change is the creation of the empty `chats` directory by the
preceding directory resolution. -/
theorem c4_invalid_format (fs : FS) (s : Json) (hno : s.as_object = none) :
    (save_chat fs s).2.files = fs.files ∧
    (∀ fs1, get_chats_dir fs = .ok fs1 →
      (save_chat fs s).1 = .error "Invalid session format") := by
  constructor
  · rw [save_chat]
    cases hg : get_chats_dir fs with
    | error e => rfl
    | ok fs1 =>
      rw [hno]
      exact (get_chats_dir_ok_parts fs fs1 hg).1
  · intro fs1 hg
    rw [save_chat, hg, hno]

/-- C4 witness: a bare string input at a concrete world. -/
theorem c4_witness :
    (save_chat exC4 (.str "y")).2.files = exC4.files ∧
    (∀ fs1, get_chats_dir exC4 = .ok fs1 →
      (save_chat exC4 (.str "y")).1 = .error "Invalid session format") :=
  c4_invalid_format exC4 (.str "y") rfl

/-- C7: whenever scanning the store directory fails, list returns an empty
sequence rather than an error. -/
theorem c7_empty_on_read_dir_failure (fs : FS) (hA : fs.appDataDirOk = true)
    (hD : fs.dirExists = true ∨ fs.createDirOk = true)
    (hR : fs.readDirOk = false) : (list_chats fs).1 = .ok [] := by
  obtain ⟨fs1, hg⟩ := get_chats_dir_isOk fs hA hD
  obtain ⟨-, hrd, -⟩ := get_chats_dir_ok_parts fs fs1 hg
  rw [hR] at hrd
  simp [list_chats, hg, hrd, sortSessions]

/-- C7 witness: the unscannable concrete world. -/
theorem c7_witness : (list_chats exNoRead).1 = .ok [] :=
  c7_empty_on_read_dir_failure exNoRead rfl (Or.inl rfl) rfl

/-- C9: deleting an id whose file does not exist fails with the underlying
OS error message preserved verbatim, and leaves every file unchanged. -/
theorem c9_delete_missing (fs : FS) (id : String) (hA : fs.appDataDirOk = true)
    (hD : fs.dirExists = true ∨ fs.createDirOk = true)
    (hmiss : getFile fs.files (id ++ ".json") = none) :
    (delete_chat fs id).1 = .error fs.removeErr ∧
    (delete_chat fs id).2.files = fs.files := by
  obtain ⟨fs1, hg⟩ := get_chats_dir_isOk fs hA hD
  obtain ⟨hfiles, -, -, -, -, hrem, -⟩ := get_chats_dir_ok_parts fs fs1 hg
  have hmiss1 : getFile fs1.files (id ++ ".json") = none := by
    rw [hfiles]
    exact hmiss
  have hres : delete_chat fs id = (.error fs1.removeErr, fs1) := by
    simp [delete_chat, hg, hmiss1]
  rw [hres, hrem]
  exact ⟨rfl, hfiles⟩

/-- C9 witness: `delete("missing")` at a concrete world. -/
theorem c9_witness :
    (delete_chat baseFS "missing").1 = .error baseFS.removeErr ∧
    (delete_chat baseFS "missing").2.files = baseFS.files :=
  c9_delete_missing baseFS "missing" rfl (Or.inl rfl) rfl

/-- C10: load never creates, modifies or deletes any record file: the
directory entries after any load call are exactly those before, and the
whole state is unchanged except possibly for the creation of the empty
`chats` directory. -/
theorem c10_load_frame (fs : FS) (id : String) :
    (load_chat fs id).2.files = fs.files ∧
    ((load_chat fs id).2 = fs ∨ (load_chat fs id).2 = { fs with dirExists := true }) := by
  cases hg : get_chats_dir fs with
  | error e =>
    have hres : (load_chat fs id).2 = fs := by
      simp [load_chat, hg]
    rw [hres]
    exact ⟨rfl, Or.inl rfl⟩
  | ok fs1 =>
    obtain ⟨hfiles, -, -, -, -, -, -, hor⟩ := get_chats_dir_ok_parts fs fs1 hg
    have hres : (load_chat fs id).2 = fs1 := by
      simp only [load_chat, hg]
      cases hgf : getFile fs1.files (id ++ ".json") with
      | none => rfl
      | some f =>
        by_cases hr : f.readable = true
        · cases hc : f.content with
          | json j => simp [hr, hc]
          | corrupt m => simp [hr, hc]
        · simp [hr]
    rw [hres, hfiles]
    exact ⟨rfl, hor⟩

/-- C8: when the target file of load cannot be read (missing or
unreadable), load fails with the fixed message "Chat not found" whatever
the underlying OS error was; when the file is read but does not parse,
load fails with the parser's own message. -/
theorem c8_load_error_messages (fs : FS) (id : String)
    (hA : fs.appDataDirOk = true) (hD : fs.dirExists = true ∨ fs.createDirOk = true) :
    (getFile fs.files (id ++ ".json") = none →
      (load_chat fs id).1 = .error "Chat not found") ∧
    (∀ f, getFile fs.files (id ++ ".json") = some f → f.readable = false →
      (load_chat fs id).1 = .error "Chat not found") ∧
    (∀ f m, getFile fs.files (id ++ ".json") = some f → f.readable = true →
      f.content = .corrupt m → (load_chat fs id).1 = .error m) := by
  obtain ⟨fs1, hg⟩ := get_chats_dir_isOk fs hA hD
  obtain ⟨hfiles, -⟩ := get_chats_dir_ok_parts fs fs1 hg
  refine ⟨?_, ?_, ?_⟩
  · intro hmiss
    have hmiss1 : getFile fs1.files (id ++ ".json") = none := by
      rw [hfiles]; exact hmiss
    simp [load_chat, hg, hmiss1]
  · intro f hsome hr
    have hsome1 : getFile fs1.files (id ++ ".json") = some f := by
      rw [hfiles]; exact hsome
    simp [load_chat, hg, hsome1, hr]
  · intro f m hsome hr hc
    have hsome1 : getFile fs1.files (id ++ ".json") = some f := by
      rw [hfiles]; exact hsome
    simp [load_chat, hg, hsome1, hr, hc]

/-- C8 witness: `load("missing")` in a world with no files. -/
theorem c8_witness : (load_chat baseFS "missing").1 = .error "Chat not found" :=
  (c8_load_error_messages baseFS "missing" rfl (Or.inl rfl)).1 rfl

/-- C1 counterexample: file `b.json` stores `id = "a"`; `load("b")` returns
the stored content verbatim, so the record's `id` is `"a"`, not the
filename stem `"b"` — reading via load does NOT re-derive the id. -/
theorem c1_counterexample :
    (load_chat exC1 "b").1 = .ok (.obj [("id", .str "a")]) ∧
    (Json.obj [("id", .str "a")]).index "id" = .str "a" ∧
    Json.str "a" ≠ Json.str "b" :=
  ⟨rfl, rfl, by simp⟩

/-- C1 (amended): reading via `list` yields, for every returned record that
is a JSON object, an `id` equal to the filename stem of the file it came
from, regardless of the stored value; `load`, by contrast, returns the
parsed file content verbatim (no id repair). -/
theorem c1_filename_is_identity :
    (∀ fs out, (list_chats fs).1 = .ok out →
      ∀ o', Json.obj o' ∈ out →
        ∃ name f, (name, f) ∈ fs.files ∧
          getVal o' "id" = some (.str (fileStem name))) ∧
    (∀ fs id f j, fs.appDataDirOk = true → fs.dirExists = true →
      getFile fs.files (id ++ ".json") = some f → f.readable = true →
      f.content = .json j → (load_chat fs id).1 = .ok j) := by
  constructor
  · intro fs out hout o' hmem
    cases hg : get_chats_dir fs with
    | error e =>
      rw [list_chats, hg] at hout
      cases hout
    | ok fs1 =>
      obtain ⟨hfiles, -⟩ := get_chats_dir_ok_parts fs fs1 hg
      by_cases hrd : fs1.readDirOk = true
      · have hout1 : (list_chats fs).1 =
            .ok (sortSessions (fs1.files.filterMap (fun nf => processEntry nf.1 nf.2))) := by
          simp [list_chats, hg, hrd]
        rw [hout1] at hout
        obtain ⟨rfl⟩ := hout
        have hmem1 : Json.obj o' ∈
            fs1.files.filterMap (fun nf => processEntry nf.1 nf.2) :=
          (sortSessions_perm _).mem_iff.mp hmem
        obtain ⟨nf, hnf, hpe⟩ := List.mem_filterMap.mp hmem1
        rw [hfiles] at hnf
        exact ⟨nf.1, nf.2, hnf, processEntry_obj_id nf.1 nf.2 o' hpe⟩
      · have hout1 : (list_chats fs).1 = .ok (sortSessions []) := by
          simp [list_chats, hg, hrd]
        rw [hout1] at hout
        obtain ⟨rfl⟩ := hout
        rw [show sortSessions [] = [] from by simp [sortSessions]] at hmem
        cases hmem
  · intro fs id f j hA hD hsome hr hc
    rw [load_chat, get_chats_dir_of_exists fs hA hD]
    simp [hsome, hr, hc]

/-- C1 witness: the amended claim at the concrete one-file world — `list`
reports `id = "b"` for file `b.json` although the stored id is `"a"`, and
`load` returns the stored object verbatim. -/
theorem c1_witness :
    (∃ name f, (name, f) ∈ exC1.files ∧
      getVal [("id", Json.str "b")] "id" = some (.str (fileStem name))) ∧
    (load_chat exC1 "b").1 = .ok (.obj [("id", .str "a")]) := by
  constructor
  · refine c1_filename_is_identity.1 exC1 [.obj [("id", .str "b")]] ?_
      [("id", Json.str "b")] (by simp)
    have h1 : (list_chats exC1).1 =
        .ok (sortSessions [.obj [("id", .str "b")]]) := rfl
    rw [h1]
    simp [sortSessions]
  · exact c1_filename_is_identity.2 exC1 "b" ⟨true, "", .json (.obj [("id", .str "a")]), none⟩
      (.obj [("id", .str "a")]) rfl rfl rfl rfl rfl

/-- C6: list silently skips exactly the entries that fail to read or fail
to parse, returns the rest without error (a permutation of the per-file
scan results), and concretely one corrupt file among two valid ones yields
exactly the two valid records. -/
theorem c6_skips_failing_files :
    (∀ fs, fs.appDataDirOk = true → (fs.dirExists = true ∨ fs.createDirOk = true) →
      fs.readDirOk = true →
      ∃ out, (list_chats fs).1 = .ok out ∧
        out.Perm (fs.files.filterMap (fun nf => processEntry nf.1 nf.2)) ∧
        (∀ name f, f.readable = false ∨ (∃ m, f.content = .corrupt m) →
          processEntry name f = none) ∧
        (∀ name f data, fileExt name = some "json" → f.readable = true →
          f.content = .json data →
          processEntry name f = some (repairRecord (fileStem name) f.created data))) ∧
    (list_chats exMix).1 = .ok [
      .obj [("timestamp", .num (.rat 2)), ("id", .str "good2")],
      .obj [("timestamp", .num (.rat 1)), ("id", .str "good1")]] := by
  constructor
  · intro fs hA hD hR
    refine ⟨_, list_chats_ok fs hA hD hR, sortSessions_perm _, ?_, ?_⟩
    · intro name f hfail
      rcases hfail with hr | ⟨m, hc⟩
      · simp [processEntry, hr]
      · simp [processEntry, hc]
    · intro name f data hext hr hc
      simp [processEntry, hext, hr, hc]
  · have h1 : (list_chats exMix).1 = .ok (sortSessions [
        .obj [("timestamp", .num (.rat 1)), ("id", .str "good1")],
        .obj [("timestamp", .num (.rat 2)), ("id", .str "good2")]]) := rfl
    rw [h1]
    norm_num [sortSessions, List.mergeSort, List.merge, cmpSessions, effTs,
      Json.index, Json.as_f64, getVal, JNum.partialCmp,
      bne_gt_gt_eq, bne_lt_gt_eq, bne_eq_gt_eq]

/-- C6 witness: the skip behaviour at the concrete mixed store. -/
theorem c6_witness :
    ∃ out, (list_chats exMix).1 = .ok out ∧
      out.Perm (exMix.files.filterMap (fun nf => processEntry nf.1 nf.2)) ∧
      (∀ name f, f.readable = false ∨ (∃ m, f.content = .corrupt m) →
        processEntry name f = none) ∧
      (∀ name f data, fileExt name = some "json" → f.readable = true →
        f.content = .json data →
        processEntry name f = some (repairRecord (fileStem name) f.created data)) :=
  c6_skips_failing_files.1 exMix rfl (Or.inl rfl) rfl

/-- C5 counterexample: two records with equal timestamps 100 are both
returned, so the output is not STRICTLY descending — adjacent effective
timestamps are equal (and neither is NaN). -/
theorem c5_counterexample :
    (list_chats exTie).1 = .ok [
      .obj [("timestamp", .num (.rat 100)), ("id", .str "a")],
      .obj [("timestamp", .num (.rat 100)), ("id", .str "b")]] ∧
    effTs (.obj [("timestamp", .num (.rat 100)), ("id", .str "a")]) = .rat 100 ∧
    effTs (.obj [("timestamp", .num (.rat 100)), ("id", .str "b")]) = .rat 100 := by
  refine ⟨?_, rfl, rfl⟩
  have h1 : (list_chats exTie).1 = .ok (sortSessions [
      .obj [("timestamp", .num (.rat 100)), ("id", .str "a")],
      .obj [("timestamp", .num (.rat 100)), ("id", .str "b")]]) := rfl
  rw [h1]
  norm_num [sortSessions, List.mergeSort, List.merge, cmpSessions, effTs,
    Json.index, Json.as_f64, getVal, JNum.partialCmp,
    bne_gt_gt_eq, bne_lt_gt_eq, bne_eq_gt_eq]

/-- C5 (amended): list returns its records sorted in non-increasing
(descending, ties adjacent) order of effective timestamp, where a missing
or non-numeric timestamp sorts as 0.0; incomparable (NaN) comparisons fall
back to Equal without panicking; and concretely timestamps 100, 300, 200
come back in the order 300, 200, 100. -/
theorem c5_descending_order :
    (∀ fs, fs.appDataDirOk = true → (fs.dirExists = true ∨ fs.createDirOk = true) →
      fs.readDirOk = true → (∀ nf ∈ fs.files, File.noNan nf.2 = true) →
      ∃ out, (list_chats fs).1 = .ok out ∧
        out.Pairwise (fun a b => tsVal b ≤ tsVal a)) ∧
    (∀ x, JNum.partialCmp .nan x = none ∧ JNum.partialCmp x .nan = none) ∧
    (∀ a b : Json, effTs a = .nan ∨ effTs b = .nan → cmpSessions a b = .eq) ∧
    (list_chats exSorted).1 = .ok [
      .obj [("timestamp", .num (.rat 300)), ("id", .str "b")],
      .obj [("timestamp", .num (.rat 200)), ("id", .str "c")],
      .obj [("timestamp", .num (.rat 100)), ("id", .str "a")]] := by
  refine ⟨?_, ?_, ?_, ?_⟩
  · intro fs hA hD hR hN
    refine ⟨_, list_chats_ok fs hA hD hR, ?_⟩
    apply sortSessions_sorted
    intro j hj
    obtain ⟨nf, hnf, hpe⟩ := List.mem_filterMap.mp hj
    exact processEntry_tsRat nf.1 nf.2 j (hN nf hnf) hpe
  · intro x
    cases x with
    | rat q => exact ⟨rfl, rfl⟩
    | nan => exact ⟨rfl, rfl⟩
  · intro a b h
    rcases h with ha | hb
    · rw [cmpSessions, ha]
      cases hB : effTs b <;> rfl
    · rw [cmpSessions, hb]
      rfl
  · have h1 : (list_chats exSorted).1 = .ok (sortSessions [
        .obj [("timestamp", .num (.rat 100)), ("id", .str "a")],
        .obj [("timestamp", .num (.rat 300)), ("id", .str "b")],
        .obj [("timestamp", .num (.rat 200)), ("id", .str "c")]]) := rfl
    rw [h1]
    norm_num [sortSessions, List.mergeSort, List.merge, cmpSessions, effTs,
      Json.index, Json.as_f64, getVal, JNum.partialCmp,
      bne_gt_gt_eq, bne_lt_gt_eq, bne_eq_gt_eq]

/-- C5 witness: the sortedness guarantee at the concrete three-record
store. -/
theorem c5_witness :
    ∃ out, (list_chats exSorted).1 = .ok out ∧
      out.Pairwise (fun a b => tsVal b ≤ tsVal a) :=
  c5_descending_order.1 exSorted rfl (Or.inl rfl) rfl (by decide)
